import Mathlib

/-!
Verification of the chunked audio-transcription pipeline of the
Transcript-with-Speaker-and-Timestamps repository.

The TypeScript sources are shallowly embedded: each pure computation is
translated into an executable Lean function, stateful handlers become explicit
state-passing functions over an `AppState` record, and the external
collaborators (the generative-AI transcription / formatting / translation
services, the audio decoder) are passed in as `Except`-valued oracles, mirroring
the `async` functions of the source that either return a value or throw.
Machine floats of the source are modelled in exact arithmetic (`Nat` sample
counts, `ℚ` timestamps).
-/

/-! ## Audio Segmenter — `src/utils/audioSlicer.ts`, `sliceAudio`

The source decodes the file into a buffer of `length` samples at `sampleRate`
samples per second, computes `chunkLength = sampleRate * chunkDurationSeconds`
and `numChunks = Math.ceil(duration / chunkDurationSeconds)` where
`duration = length / sampleRate`, so in exact arithmetic
`numChunks = ⌈length / chunkLength⌉`.  Each loop iteration `i` takes the sample
range `[i * chunkLength, min (i * chunkLength + chunkLength) length)` and skips
it when its computed sample count is `≤ 0`.  We model a segment by its
half-open sample range `(start, end)`. -/

/-- `Math.ceil(duration / chunkDurationSeconds)` of the source, in exact
arithmetic over sample counts: `⌈len / chunkLength⌉`. -/
def numChunks (len chunkLength : Nat) : Nat :=
  (len + chunkLength - 1) / chunkLength

/-- The loop of `sliceAudio`: for each `i < numChunks`, the sample range
`start = i * chunkLength`, `end = min (start + chunkLength) len`; ranges whose
computed length is zero are dropped (`if (chunkBufferLength <= 0) continue`). -/
def sliceAudio (len chunkLength : Nat) : List (Nat × Nat) :=
  (List.range (numChunks len chunkLength)).filterMap fun i =>
    let start := i * chunkLength
    let e := min (start + chunkLength) len
    if e - start > 0 then some (start, e) else none

/-- The segment list `segs`, read left to right, tiles the sample range starting
at `a`: each segment starts where the previous one ended, and is non-empty. -/
def contiguousFrom : Nat → List (Nat × Nat) → Prop
  | _, [] => True
  | a, se :: rest => se.1 = a ∧ a < se.2 ∧ contiguousFrom se.2 rest

/-- End of the last segment of `segs` (or `a` when `segs` is empty). -/
def chainEnd (a : Nat) (segs : List (Nat × Nat)) : Nat :=
  segs.foldl (fun _ se => se.2) a

theorem lt_numChunks_iff (len cl i : Nat) (hcl : 0 < cl) :
    i < numChunks len cl ↔ i * cl < len := by
  unfold numChunks
  rw [Nat.lt_iff_add_one_le, Nat.le_div_iff_mul_le hcl]
  have h : (i + 1) * cl = i * cl + cl := by ring
  rw [h]
  generalize i * cl = a
  omega

theorem filterMap_eq_map_of_forall {α β : Type} (f : α → Option β) (g : α → β)
    (l : List α) (h : ∀ a ∈ l, f a = some (g a)) : l.filterMap f = l.map g := by
  induction l with
  | nil => rfl
  | cons a l ih =>
    rw [List.filterMap_cons, h a (List.mem_cons_self a l), List.map_cons,
      ih fun b hb => h b (List.mem_cons_of_mem a hb)]

/-- The zero-length guard of the loop never fires: in exact arithmetic every
computed segment is non-empty, so `sliceAudio` is the plain map over
`range numChunks`. -/
theorem sliceAudio_eq_map (len cl : Nat) (hcl : 0 < cl) :
    sliceAudio len cl =
      (List.range (numChunks len cl)).map fun i => (i * cl, min (i * cl + cl) len) := by
  refine filterMap_eq_map_of_forall _ _ _ fun i hi => ?_
  have hlt : i * cl < len := (lt_numChunks_iff len cl i hcl).mp (List.mem_range.mp hi)
  have hpos : 0 < min (i * cl + cl) len - i * cl := by
    have h1 : i * cl < i * cl + cl := by omega
    omega
  simp only [hpos, if_pos]

theorem contiguousFrom_slice_aux (len cl : Nat) (hcl : 0 < cl) :
    ∀ n k, k + n = numChunks len cl →
      contiguousFrom (k * cl)
        ((List.range' k n).map fun i => (i * cl, min (i * cl + cl) len)) := by
  intro n
  induction n with
  | zero => intro k _; simp [contiguousFrom]
  | succ n ih =>
    intro k hk
    rw [List.range'_succ, List.map_cons]
    refine ⟨rfl, ?_, ?_⟩
    · have hlt : k * cl < len := (lt_numChunks_iff len cl k hcl).mp (by omega)
      omega
    · cases n with
      | zero => simp [contiguousFrom]
      | succ m =>
        have hlt : (k + 1) * cl < len := (lt_numChunks_iff len cl (k + 1) hcl).mp (by omega)
        have h1 : (k + 1) * cl = k * cl + cl := by ring
        rw [h1] at hlt
        have hmin : min (k * cl + cl) len = k * cl + cl := by omega
        rw [hmin, ← h1]
        exact ih (k + 1) (by omega)

theorem chainEnd_map_range' (f : Nat → Nat × Nat) :
    ∀ n k a, 0 < n → chainEnd a ((List.range' k n).map f) = (f (k + n - 1)).2 := by
  intro n
  induction n with
  | zero => intro k a h; omega
  | succ m ih =>
    intro k a _
    rw [List.range'_succ, List.map_cons]
    cases m with
    | zero => rfl
    | succ m' =>
      show chainEnd (f k).2 ((List.range' (k + 1) (m' + 1)).map f) = _
      rw [ih (k + 1) (f k).2 (by omega)]
      have hx : k + 1 + (m' + 1) - 1 = k + (m' + 1 + 1) - 1 := by omega
      rw [hx]

/-- **C1** (amended).  For every chunk length `c > 0` (in samples,
`chunkLength = sampleRate * chunkDurationSeconds`) and every total length,
`sliceAudio` returns exactly `⌈len / c⌉ = ceil(D / chunkDurationSeconds)`
segments — never one fewer: in exact arithmetic no computed segment has zero
length, including when the duration is an exact multiple of the chunk
duration — and the segments cover the sample range `[0, len)` in order with no
gaps and no overlaps, each of length at most `c` (so the final one may be
shorter). -/
theorem sliceAudio_spec (len cl : Nat) (hcl : 0 < cl) :
    (sliceAudio len cl).length = numChunks len cl ∧
    contiguousFrom 0 (sliceAudio len cl) ∧
    chainEnd 0 (sliceAudio len cl) = len ∧
    ∀ se ∈ sliceAudio len cl, se.2 - se.1 ≤ cl := by
  rw [sliceAudio_eq_map len cl hcl]
  refine ⟨by simp, ?_, ?_, ?_⟩
  · have h := contiguousFrom_slice_aux len cl hcl (numChunks len cl) 0 (by omega)
    simpa [List.range_eq_range'] using h
  · rcases Nat.eq_zero_or_pos (numChunks len cl) with h0 | hpos
    · have hlen : len = 0 := by
        by_contra h
        have h1 : (0 : Nat) * cl < len := by omega
        have h2 := (lt_numChunks_iff len cl 0 hcl).mpr h1
        omega
      subst hlen
      simp [h0, chainEnd]
    · rw [List.range_eq_range', chainEnd_map_range' _ _ _ _ hpos]
      obtain ⟨m, hm⟩ := Nat.exists_eq_add_of_lt hpos
      rw [Nat.zero_add] at hm
      have hub : ¬ (numChunks len cl * cl < len) := fun hc =>
        absurd ((lt_numChunks_iff len cl _ hcl).mpr hc) (by omega)
      rw [hm] at hub
      have h1 : (m + 1) * cl = m * cl + cl := by ring
      rw [h1] at hub
      simp only [hm]
      have h2 : m + 1 - 1 = m := by omega
      rw [Nat.zero_add, h2]
      show min (m * cl + cl) len = len
      omega
  · intro se hse
    simp only [List.mem_map, List.mem_range] at hse
    obtain ⟨i, _, rfl⟩ := hse
    show min (i * cl + cl) len - i * cl ≤ cl
    omega

/-- **C1** (counterexample to the claim as stated).  With one sample per second
(`sampleRate = 1`), a total duration of 4 seconds and `chunkDurationSeconds = 2`
— an exact multiple — `sliceAudio` returns `ceil(4/2) = 2` segments, not
`ceil(4/2) - 1 = 1`: no trailing zero-length segment is ever computed, so the
"one fewer" branch of the claim never occurs. -/
theorem sliceAudio_exact_multiple_count_ce :
    (0 : Nat) < 2 ∧ 2 ∣ 4 ∧ numChunks 4 2 = 2 ∧
      (sliceAudio 4 2).length = 2 ∧ (sliceAudio 4 2).length ≠ numChunks 4 2 - 1 := by
  decide

/-- Witness for `sliceAudio_spec`: the concrete instance `len = 5`, `c = 2`
(three segments `[0,2) [2,4) [4,5)`, the last shorter). -/
theorem sliceAudio_spec_witness :
    (sliceAudio 5 2).length = numChunks 5 2 ∧
    contiguousFrom 0 (sliceAudio 5 2) ∧
    chainEnd 0 (sliceAudio 5 2) = 5 ∧
    ∀ se ∈ sliceAudio 5 2, se.2 - se.1 ≤ 2 :=
  sliceAudio_spec 5 2 (by decide)


/-! ## Session status and the long-audio chunk driver — `src/App.tsx`

`handleLongAudioUpload` slices the file (`sliceAudio` may throw a decode
error), then loops over the chunk blobs strictly sequentially, `await`ing
`transcribeAudioChunk` for each and appending `chunkTranscript + '\n\n'` to the
accumulated transcript; the whole loop sits inside one `try`, whose `catch`
sets the `error` status.  On a non-empty accumulated transcript the handler
runs `runProofreading`, which always ends in the `transcribed` status.  The
decoder and the per-chunk transcription collaborator are modelled as
`Except`-valued oracles; chunk blobs are identified by their index. -/

/-- The `Status` union type of `App.tsx` (the `status` React state). -/
inductive Status
  | idle
  | recording
  | processing_transcription
  | proofreading
  | transcribed
  | processing_formatting
  | success
  | error
deriving DecidableEq

/-- The JavaScript emptiness test `!s.trim()`: true iff every character of `s`
is whitespace (`String.trim` of the runtime strips leading and trailing
whitespace, so the trimmed string is empty exactly then). -/
def isBlank (s : String) : Bool := s.data.all Char.isWhitespace

/-- Outcome of a long-audio job: final status, surfaced error message,
accumulated raw transcription, and the chunk indices submitted to the
transcription collaborator, in submission order. -/
structure LongAudioOutcome where
  status : Status
  errorMsg : Option String
  rawTranscription : String
  attempted : List Nat
deriving DecidableEq

/-- The `for` loop of `handleLongAudioUpload`: transcribe each chunk in order,
appending `chunkTranscript + '\n\n'`; the first thrown `TranscriptionError`
escapes the loop (third component `some e`), later chunks are never attempted. -/
def transcribeChunksFrom (transcribe : Nat → Except String String) :
    List Nat → String → List Nat → String × List Nat × Option String
  | [], acc, att => (acc, att, none)
  | i :: rest, acc, att =>
    match transcribe i with
    | .error e => (acc, att ++ [i], some e)
    | .ok t => transcribeChunksFrom transcribe rest (acc ++ (t ++ "\n\n")) (att ++ [i])

/-- `handleLongAudioUpload` of `App.tsx` over a decode oracle (the
`sliceAudio` call, which either throws or yields the chunk list) and a
per-chunk transcription oracle.  A successful non-empty run ends in
`transcribed` because `runProofreading` unconditionally sets that status. -/
def finishLongAudio : String × List Nat × Option String → LongAudioOutcome
  | (acc, att, some e) =>
    { status := .error, errorMsg := some ("Long audio processing failed: " ++ e),
      rawTranscription := acc, attempted := att }
  | (acc, att, none) =>
    if isBlank acc then
      { status := .error, errorMsg := some "Transcription failed or the audio was empty.",
        rawTranscription := acc, attempted := att }
    else
      { status := .transcribed, errorMsg := none,
        rawTranscription := acc, attempted := att }

def handleLongAudioUpload (decode : Except String (List Nat))
    (transcribe : Nat → Except String String) : LongAudioOutcome :=
  match decode with
  | .error e =>
    { status := .error, errorMsg := some ("Long audio processing failed: " ++ e),
      rawTranscription := "", attempted := [] }
  | .ok chunkIdxs => finishLongAudio (transcribeChunksFrom transcribe chunkIdxs "" [])

/-- Concatenation of the per-chunk texts, each followed by the `'\n\n'`
paragraph break, in list order. -/
def assembleTexts (texts : Nat → String) : List Nat → String
  | [] => ""
  | i :: rest => (texts i ++ "\n\n") ++ assembleTexts texts rest

theorem transcribeChunksFrom_ok (transcribe : Nat → Except String String)
    (texts : Nat → String) :
    ∀ (idxs : List Nat) (acc : String) (att : List Nat),
      (∀ i ∈ idxs, transcribe i = .ok (texts i)) →
      transcribeChunksFrom transcribe idxs acc att =
        (acc ++ assembleTexts texts idxs, att ++ idxs, none) := by
  intro idxs
  induction idxs with
  | nil => intro acc att _; simp [transcribeChunksFrom, assembleTexts]
  | cons i rest ih =>
    intro acc att h
    rw [transcribeChunksFrom, h i (List.mem_cons_self i rest)]
    show transcribeChunksFrom transcribe rest (acc ++ (texts i ++ "\n\n")) (att ++ [i]) = _
    rw [ih (acc ++ (texts i ++ "\n\n")) (att ++ [i])
      fun j hj => h j (List.mem_cons_of_mem i hj)]
    rw [assembleTexts, String.append_assoc]
    simp

theorem transcribeChunksFrom_error (transcribe : Nat → Except String String) (e : String) :
    ∀ (pre : List Nat) (acc : String) (att : List Nat) (i : Nat) (post : List Nat),
      (∀ j ∈ pre, ∃ t, transcribe j = .ok t) → transcribe i = .error e →
      ∃ acc', transcribeChunksFrom transcribe (pre ++ i :: post) acc att =
        (acc', att ++ pre ++ [i], some e) := by
  intro pre
  induction pre with
  | nil =>
    intro acc att i post _ hi
    refine ⟨acc, ?_⟩
    rw [List.nil_append, transcribeChunksFrom, hi]
    simp
  | cons j pre ih =>
    intro acc att i post hpre hi
    obtain ⟨t, ht⟩ := hpre j (List.mem_cons_self j pre)
    rw [List.cons_append, transcribeChunksFrom, ht]
    obtain ⟨acc', h⟩ := ih (acc ++ (t ++ "\n\n")) (att ++ [j]) i post
      (fun b hb => hpre b (List.mem_cons_of_mem j hb)) hi
    refine ⟨acc', ?_⟩
    show transcribeChunksFrom transcribe (pre ++ i :: post) (acc ++ (t ++ "\n\n")) (att ++ [j]) = _
    rw [h]
    simp

/-- **C9**.  If the segmentation stage fails (the decode oracle throws) the job
ends in the `error` state with the decode failure surfaced, and no per-chunk
transcription request is ever issued; likewise a file that decodes to zero
chunks (a 0-duration input) errors out with no transcription request. -/
theorem longAudio_decode_error_no_calls (e : String)
    (transcribe : Nat → Except String String) :
    ((handleLongAudioUpload (.error e) transcribe).attempted = [] ∧
     (handleLongAudioUpload (.error e) transcribe).status = .error ∧
     (handleLongAudioUpload (.error e) transcribe).errorMsg =
       some ("Long audio processing failed: " ++ e)) ∧
    ((handleLongAudioUpload (.ok []) transcribe).attempted = [] ∧
     (handleLongAudioUpload (.ok []) transcribe).status = .error) := by
  exact ⟨⟨rfl, rfl, rfl⟩, rfl, rfl⟩

/-- **C2** (counterexample to the claim as stated).  Three chunks, chunk 1
fails with a recoverable `TranscriptionError` while chunks 0 and 2 would
succeed: the driver does not record the failure and continue — the whole job
ends in the `error` state, chunk 2 is never attempted (`attempted = [0, 1]`),
no partial-success status is surfaced, and the accumulated transcript
`"t\n\n"` holds only chunk 0's text with no gap marker. -/
theorem longAudio_chunk_failure_ce :
    handleLongAudioUpload (.ok [0, 1, 2])
        (fun i => if i = 1 then .error "The AI model encountered an internal error." else .ok "t") =
      { status := .error,
        errorMsg := some "Long audio processing failed: The AI model encountered an internal error.",
        rawTranscription := "t\n\n",
        attempted := [0, 1] } := by
  decide

/-- **C2** (amended).  On the first per-chunk `TranscriptionError` the driver
aborts the whole job: the job ends in the `error` state with that failure
surfaced, the failing chunk is the last one ever submitted (chunks after it are
never transcribed), and no partial-success status or gap marker is produced. -/
theorem longAudio_chunk_failure_aborts (pre post : List Nat) (i : Nat)
    (transcribe : Nat → Except String String) (e : String)
    (hpre : ∀ j ∈ pre, ∃ t, transcribe j = .ok t) (hi : transcribe i = .error e) :
    (handleLongAudioUpload (.ok (pre ++ i :: post)) transcribe).status = .error ∧
    (handleLongAudioUpload (.ok (pre ++ i :: post)) transcribe).attempted = pre ++ [i] ∧
    (handleLongAudioUpload (.ok (pre ++ i :: post)) transcribe).errorMsg =
      some ("Long audio processing failed: " ++ e) := by
  obtain ⟨acc', h⟩ := transcribeChunksFrom_error transcribe e pre "" [] i post hpre hi
  show (finishLongAudio (transcribeChunksFrom transcribe (pre ++ i :: post) "" [])).status = _ ∧
    (finishLongAudio (transcribeChunksFrom transcribe (pre ++ i :: post) "" [])).attempted = _ ∧
    (finishLongAudio (transcribeChunksFrom transcribe (pre ++ i :: post) "" [])).errorMsg = _
  rw [h]
  exact ⟨rfl, by simp [finishLongAudio], rfl⟩

/-- Witness for `longAudio_chunk_failure_aborts`: chunks `[0, 1, 2]` with chunk
`1` failing. -/
theorem longAudio_chunk_failure_aborts_witness :
    (handleLongAudioUpload (.ok ([0] ++ 1 :: [2]))
        (fun i => if i = 1 then .error "quota" else .ok "t")).status = .error ∧
    (handleLongAudioUpload (.ok ([0] ++ 1 :: [2]))
        (fun i => if i = 1 then .error "quota" else .ok "t")).attempted = [0] ++ [1] ∧
    (handleLongAudioUpload (.ok ([0] ++ 1 :: [2]))
        (fun i => if i = 1 then .error "quota" else .ok "t")).errorMsg =
      some ("Long audio processing failed: " ++ "quota") :=
  longAudio_chunk_failure_aborts [0] [2] 1
    (fun i => if i = 1 then .error "quota" else .ok "t") "quota"
    (by
      intro j hj
      simp only [List.mem_singleton] at hj
      subst hj
      exact ⟨"t", rfl⟩)
    rfl

/-- **C3**.  When every chunk transcription succeeds, the accumulated raw
transcript of a long-audio job over chunks `0, …, n-1` is exactly the chunk
texts concatenated in strictly ascending chunk-index order, each followed by a
`'\n\n'` paragraph break; the chunks are submitted and committed in that same
order (the loop is strictly sequential, so no other arrival order exists and
out-of-order text can never appear). -/
theorem longAudio_assembles_in_order (n : Nat) (transcribe : Nat → Except String String)
    (texts : Nat → String) (h : ∀ i ∈ List.range n, transcribe i = .ok (texts i)) :
    (handleLongAudioUpload (.ok (List.range n)) transcribe).rawTranscription =
      assembleTexts texts (List.range n) ∧
    (handleLongAudioUpload (.ok (List.range n)) transcribe).attempted = List.range n := by
  have hh := transcribeChunksFrom_ok transcribe texts (List.range n) "" [] h
  show (finishLongAudio (transcribeChunksFrom transcribe (List.range n) "" [])).rawTranscription = _ ∧
    (finishLongAudio (transcribeChunksFrom transcribe (List.range n) "" [])).attempted = _
  rw [hh]
  simp only [finishLongAudio, List.nil_append, String.empty_append]
  split <;> exact ⟨rfl, rfl⟩

/-- Witness for `longAudio_assembles_in_order`: two chunks with texts `"a"` and
`"b"`. -/
theorem longAudio_assembles_in_order_witness :
    (handleLongAudioUpload (.ok (List.range 2))
        (fun i => .ok (if i = 0 then "a" else "b"))).rawTranscription =
      assembleTexts (fun i => if i = 0 then "a" else "b") (List.range 2) ∧
    (handleLongAudioUpload (.ok (List.range 2))
        (fun i => .ok (if i = 0 then "a" else "b"))).attempted = List.range 2 :=
  longAudio_assembles_in_order 2 (fun i => .ok (if i = 0 then "a" else "b"))
    (fun i => if i = 0 then "a" else "b") (by intro i _; rfl)

/-! ## Format/translate pipeline, proofreading, and raw-transcript editing —
`src/App.tsx` (`handleFormatRequest`, `runProofreading`, the `TranscriptCard`
props) and `src/services/gemini.ts` (`proofreadTranscript`)

The relevant React state is collected in `AppState`.  `handleFormatRequest`
returns early on an empty raw transcript, otherwise clears
`formattedTranscript`, calls the `format` collaborator on the raw transcript,
then — only when `finalTranslationLanguage !== 'none'` — the `translate`
collaborator on the formatted text; any thrown error lands in the `catch`
which sets the `error` status. -/

/-- The `TranslationLanguage` union type of `App.tsx`. -/
inductive TranslationLanguage
  | none
  | english
  | spanish
  | french
  | german
  | bangla
  | hindi
deriving DecidableEq

/-- The React state of `App` that the format / proofread / edit handlers read
and write. -/
structure AppState where
  rawTranscription : String
  formattedTranscript : String
  status : Status
  errorMsg : Option String
  highlightedSentences : List String
deriving DecidableEq

/-- `handleFormatRequest` of `App.tsx` over the `formatTranscript` and
`translateText` collaborators (each may throw).  It returns early when the raw
transcript is empty; otherwise it clears `formattedTranscript`, formats, then
translates the already-formatted text when a target language other than
`'none'` is selected; a throw from either stage reaches the `catch`, leaving
the cleared `formattedTranscript` in place and setting the `error` status. -/
def handleFormatRequest (s : AppState) (lang : TranslationLanguage)
    (format : String → Except String String)
    (translate : String → Except String String) : AppState :=
  if s.rawTranscription = "" then s
  else
    match format s.rawTranscription with
    | .error e =>
      { s with formattedTranscript := "", status := .error,
               errorMsg := some ("Failed to process transcript: " ++ e) }
    | .ok formattedResult =>
      if lang = TranslationLanguage.none then
        { s with formattedTranscript := formattedResult, status := .success }
      else
        match translate formattedResult with
        | .error e =>
          { s with formattedTranscript := "", status := .error,
                   errorMsg := some ("Failed to process transcript: " ++ e) }
        | .ok translatedResult =>
          { s with formattedTranscript := translatedResult, status := .success }

/-- **C5** (counterexample to the claim as stated).  A state holding a prior
successful formatted artifact `"OLD"`: a new format request with a non-`none`
target language whose translation stage fails leaves the formatted artifact
cleared to `""` — the prior successful artifact does *not* remain, because
`handleFormatRequest` discards it (`setFormattedTranscript('')`) at the start
of the request. -/
theorem handleFormatRequest_prior_artifact_ce :
    (handleFormatRequest
        { rawTranscription := "R", formattedTranscript := "OLD", status := .success,
          errorMsg := Option.none, highlightedSentences := [] }
        TranslationLanguage.bangla
        (fun _ => .ok "F") (fun _ => .error "TranslationError")).formattedTranscript = "" ∧
    (handleFormatRequest
        { rawTranscription := "R", formattedTranscript := "OLD", status := .success,
          errorMsg := Option.none, highlightedSentences := [] }
        TranslationLanguage.bangla
        (fun _ => .ok "F") (fun _ => .error "TranslationError")).status = .error ∧
    ("" : String) ≠ "OLD" := by
  decide

/-- **C5** (amended).  For every format request with a non-`none` target
language on a non-empty raw transcript, the pipeline formats first and feeds
the already-formatted text to the translation stage; if either stage fails the
whole request fails with the `error` status and the formatted artifact is left
empty — no partial "formatted but not translated" result is substituted, but
the prior formatted artifact is discarded at request start rather than
retained; the raw transcript is unchanged on every path, and on success of
both stages the artifact is the translation of the formatted text. -/
theorem handleFormatRequest_spec (s : AppState) (lang : TranslationLanguage)
    (format translate : String → Except String String)
    (hraw : s.rawTranscription ≠ "") (hlang : lang ≠ TranslationLanguage.none) :
    (handleFormatRequest s lang format translate).rawTranscription = s.rawTranscription ∧
    (match format s.rawTranscription with
     | .error _ =>
       (handleFormatRequest s lang format translate).status = .error ∧
       (handleFormatRequest s lang format translate).formattedTranscript = ""
     | .ok f =>
       match translate f with
       | .error _ =>
         (handleFormatRequest s lang format translate).status = .error ∧
         (handleFormatRequest s lang format translate).formattedTranscript = ""
       | .ok t =>
         (handleFormatRequest s lang format translate).status = .success ∧
         (handleFormatRequest s lang format translate).formattedTranscript = t) := by
  unfold handleFormatRequest
  rw [if_neg hraw]
  cases hf : format s.rawTranscription with
  | error e => exact ⟨rfl, rfl, rfl⟩
  | ok f =>
    cases ht : translate f with
    | error e =>
      simp only [if_neg hlang, ht]
      simp
    | ok t =>
      simp only [if_neg hlang, ht]
      simp

/-- Witness for `handleFormatRequest_spec`: a concrete success-path instance. -/
theorem handleFormatRequest_spec_witness :
    (handleFormatRequest
        { rawTranscription := "R", formattedTranscript := "OLD", status := .transcribed,
          errorMsg := Option.none, highlightedSentences := [] }
        TranslationLanguage.french
        (fun _ => .ok "F") (fun t => .ok (t ++ "!"))).rawTranscription = "R" ∧
    (match (fun _ => (.ok "F" : Except String String)) "R" with
     | .error _ => True ∧ True
     | .ok f =>
       match (fun t => (.ok (t ++ "!") : Except String String)) f with
       | .error _ => True ∧ True
       | .ok t =>
         (handleFormatRequest
             { rawTranscription := "R", formattedTranscript := "OLD", status := .transcribed,
               errorMsg := Option.none, highlightedSentences := [] }
             TranslationLanguage.french
             (fun _ => .ok "F") (fun u => .ok (u ++ "!"))).status = .success ∧
         (handleFormatRequest
             { rawTranscription := "R", formattedTranscript := "OLD", status := .transcribed,
               errorMsg := Option.none, highlightedSentences := [] }
             TranslationLanguage.french
             (fun _ => .ok "F") (fun u => .ok (u ++ "!"))).formattedTranscript = t) :=
  ⟨(handleFormatRequest_spec _ TranslationLanguage.french (fun _ => .ok "F")
      (fun u => .ok (u ++ "!")) (by decide) (by decide)).1,
   (handleFormatRequest_spec _ TranslationLanguage.french (fun _ => .ok "F")
      (fun u => .ok (u ++ "!")) (by decide) (by decide)).2⟩

/-- `proofreadTranscript` of `src/services/gemini.ts` over the proofreading
API call, modelled as an oracle that throws, returns a parsed `errors` array,
or returns a falsy `errors` field (`jsonResponse.errors || []`).  An empty
transcript short-circuits to `[]`; every failure is caught inside the function
and degrades to `[]`, so no exception ever crosses the component boundary. -/
def proofreadTranscript (transcript : String)
    (api : Except String (Option (List String))) : List String :=
  if isBlank transcript then []
  else
    match api with
    | .error _ => []
    | .ok Option.none => []
    | .ok (some sentences) => sentences

/-- `runProofreading` of `App.tsx`: returns early on a blank transcript;
otherwise sets `highlightedSentences` from `proofreadTranscript` (catching any
error as `[]`) and — in the `finally` block — sets the status to
`transcribed` unconditionally. -/
def runProofreading (s : AppState) (transcript : String)
    (api : Except String (Option (List String))) : AppState :=
  if isBlank transcript then s
  else
    { s with status := .transcribed,
             highlightedSentences := proofreadTranscript transcript api }

/-- **C6**.  Proofreading is advisory and never blocking: for every non-blank
transcript (a blank one never enters the proofreading phase at all), whatever
the proofreading call does, the session ends in the `transcribed` state, and
when the call throws the flagged-sentence list is empty rather than an
exception crossing the component boundary (the model functions are total). -/
theorem runProofreading_never_blocks (s : AppState) (transcript : String)
    (api : Except String (Option (List String))) (h : isBlank transcript = false) :
    (runProofreading s transcript api).status = .transcribed ∧
    ∀ e, api = .error e → (runProofreading s transcript api).highlightedSentences = [] := by
  unfold runProofreading
  rw [if_neg (by simp [h])]
  refine ⟨rfl, fun e he => ?_⟩
  show proofreadTranscript transcript api = []
  unfold proofreadTranscript
  rw [if_neg (by simp [h]), he]

/-- Witness for `runProofreading_never_blocks`: the transcript `"hello"` with a
throwing proofreading call. -/
theorem runProofreading_never_blocks_witness :
    (runProofreading
        { rawTranscription := "hello", formattedTranscript := "", status := .proofreading,
          errorMsg := Option.none, highlightedSentences := [] }
        "hello" (.error "500")).status = .transcribed ∧
    ∀ e, (.error "500" : Except String (Option (List String))) = .error e →
      (runProofreading
          { rawTranscription := "hello", formattedTranscript := "", status := .proofreading,
            errorMsg := Option.none, highlightedSentences := [] }
          "hello" (.error "500")).highlightedSentences = [] :=
  runProofreading_never_blocks _ "hello" (.error "500") (by decide)

/-! ## Raw-transcript editing and export gating — `src/App.tsx` render

The raw `TranscriptCard` receives
`isEditable={status === 'transcribed' || status === 'success'}` and
`onContentChange={setRawTranscription}`; the formatted card receives
`isDownloadable={!!formattedTranscript && status === 'success'}`.  Editing the
raw transcript only replaces `rawTranscription` — no other state is touched. -/

/-- `isEditable` of the raw `TranscriptCard`. -/
def isEditable (s : AppState) : Prop :=
  s.status = .transcribed ∨ s.status = .success

instance (s : AppState) : Decidable (isEditable s) := by
  unfold isEditable
  infer_instance

/-- `isDownloadable` of the formatted `TranscriptCard`:
`!!formattedTranscript && status === 'success'`. -/
def isDownloadable (s : AppState) : Prop :=
  s.formattedTranscript ≠ "" ∧ s.status = .success

instance (s : AppState) : Decidable (isDownloadable s) := by
  unfold isDownloadable
  infer_instance

/-- Editing the raw transcript: `onContentChange={setRawTranscription}` — the
edit replaces `rawTranscription` and nothing else. -/
def editRaw (s : AppState) (newText : String) : AppState :=
  { s with rawTranscription := newText }

/-- **C7** (counterexample to the claim as stated).  In the `success` state
with formatted artifact `"F"`, editing the raw transcript leaves the stale
artifact in place and still exportable: no invalidation happens and no fresh
format request is required before the download is offered again. -/
theorem editRaw_stale_artifact_ce :
    isEditable { rawTranscription := "R", formattedTranscript := "F", status := .success,
                 errorMsg := Option.none, highlightedSentences := [] } ∧
    (editRaw { rawTranscription := "R", formattedTranscript := "F", status := .success,
               errorMsg := Option.none, highlightedSentences := [] } "R edited").formattedTranscript
      = "F" ∧
    isDownloadable (editRaw { rawTranscription := "R", formattedTranscript := "F",
                              status := .success, errorMsg := Option.none,
                              highlightedSentences := [] } "R edited") := by
  decide

/-- **C7** (amended).  Raw-transcript editing is permitted exactly in the
`transcribed` and `success` states; editing replaces only the raw text — it
does not invalidate the previously produced formatted artifact: the artifact,
the status, and hence the exportability of the (now stale) artifact are all
unchanged by the edit. -/
theorem editRaw_spec (s : AppState) (newText : String) :
    (isEditable s ↔ (s.status = .transcribed ∨ s.status = .success)) ∧
    (editRaw s newText).formattedTranscript = s.formattedTranscript ∧
    (editRaw s newText).status = s.status ∧
    (isDownloadable (editRaw s newText) ↔ isDownloadable s) := by
  exact ⟨Iff.rfl, rfl, rfl, Iff.rfl⟩

/-! ## SRT export — `src/src/services/postprocessing.ts`, `exportToSRT`

`exportToSRT` walks the segment list in input order with a counter starting at
1; segments missing `start` or `end` are skipped (`continue`) without
incrementing the counter; each kept segment is emitted as a caption block with
the current counter, the segment's own timestamps, and
``speaker ? `${speaker}: ${text}` : text``.  The source's floating-point
second values are modelled as `ℚ`; a block carries the data rendered into the
emitted string (`index`, the two timestamps, the text line). -/

/-- A `TranscriptSegment` of `postprocessing.ts` (the `end` field is named
`stop` here because `end` is a Lean keyword). -/
structure TranscriptSegment where
  text : String
  start : Option ℚ
  stop : Option ℚ
  speaker : Option String
deriving DecidableEq

/-- One emitted SRT caption block. -/
structure SRTBlock where
  index : Nat
  start : ℚ
  stop : ℚ
  text : String
deriving DecidableEq

/-- The loop of `exportToSRT`, carrying the running block counter (`index`,
initially 1). -/
def exportToSRT : List TranscriptSegment → Nat → List SRTBlock
  | [], _ => []
  | seg :: rest, idx =>
    match seg.start, seg.stop with
    | some s, some e =>
      { index := idx, start := s, stop := e,
        text := match seg.speaker with
                | some sp => sp ++ ": " ++ seg.text
                | Option.none => seg.text } :: exportToSRT rest (idx + 1)
    | _, _ => exportToSRT rest idx

/-- **C8** (counterexample to the claim as stated).  Two segments whose
timestamps decrease (`[10,11]` then `[5,6]`): `exportToSRT` silently emits
them unchanged and in input order — block 2 starts before block 1 ends — the
input is neither rejected nor re-sorted. -/
theorem exportToSRT_decreasing_ce :
    exportToSRT [{ text := "a", start := some 10, stop := some 11, speaker := Option.none },
                 { text := "b", start := some 5, stop := some 6, speaker := Option.none }] 1 =
      [{ index := 1, start := 10, stop := 11, text := "a" },
       { index := 2, start := 5, stop := 6, text := "b" }] ∧
    (5 : ℚ) < 11 := by
  constructor
  · rfl
  · norm_num

theorem exportToSRT_index_aux (segs : List TranscriptSegment) :
    ∀ idx, (exportToSRT segs idx).map SRTBlock.index =
      List.range' idx (exportToSRT segs idx).length := by
  induction segs with
  | nil => intro idx; rfl
  | cons seg rest ih =>
    intro idx
    unfold exportToSRT
    cases hs : seg.start with
    | none => exact ih idx
    | some s =>
      cases he : seg.stop with
      | none => exact ih idx
      | some e =>
        simp only [List.map_cons, List.length_cons, List.range'_succ]
        rw [ih (idx + 1)]

theorem exportToSRT_timestamps_aux (segs : List TranscriptSegment) :
    ∀ idx, (exportToSRT segs idx).map (fun b => (b.start, b.stop)) =
      segs.filterMap fun seg =>
        match seg.start, seg.stop with
        | some s, some e => some (s, e)
        | _, _ => Option.none := by
  induction segs with
  | nil => intro idx; rfl
  | cons seg rest ih =>
    intro idx
    unfold exportToSRT
    rw [List.filterMap_cons]
    cases hs : seg.start with
    | none => exact ih idx
    | some s =>
      cases he : seg.stop with
      | none => exact ih idx
      | some e =>
        simp only [List.map_cons]
        rw [ih (idx + 1)]

/-- **C8** (amended).  The emitted caption blocks carry sequential integer ids
starting at 1, but the export performs no timestamp validation: the `(start,
end)` pairs of the kept segments (those with both timestamps present) are
emitted verbatim in input order, so input whose timestamps are not
monotonically non-decreasing is emitted as-is — neither rejected nor
re-sorted. -/
theorem exportToSRT_spec (segs : List TranscriptSegment) :
    (exportToSRT segs 1).map SRTBlock.index =
      List.range' 1 (exportToSRT segs 1).length ∧
    (exportToSRT segs 1).map (fun b => (b.start, b.stop)) =
      segs.filterMap fun seg =>
        match seg.start, seg.stop with
        | some s, some e => some (s, e)
        | _, _ => Option.none :=
  ⟨exportToSRT_index_aux segs 1, exportToSRT_timestamps_aux segs 1⟩

/-! ## Chunk/transcript length guard — `src/src/services/postprocessing.ts`,
`enhanceChunks`

`enhanceChunks` first checks `audioChunks.length !== geminiTranscripts.length`
and throws `'Number of audio chunks must match number of transcripts'` before
any `FormData` is constructed; only when the lengths agree does it build the
payload — one `File` named ``chunk_${idx}.wav`` per chunk plus the transcripts
— and `fetch` the backend.  A returned `.ok payload` models the request being
issued with that payload; `.error` models the throw, before payload or
network. -/

/-- The multipart payload `enhanceChunks` uploads: the generated per-chunk
file names and the transcripts. -/
structure UploadPayload where
  files : List String
  transcripts : List String
deriving DecidableEq

/-- `enhanceChunks` of `postprocessing.ts` up to the network call; `α` is the
type of audio chunk blobs. -/
def enhanceChunks {α : Type} (audioChunks : List α) (geminiTranscripts : List String) :
    Except String UploadPayload :=
  if audioChunks.length ≠ geminiTranscripts.length then
    .error "Number of audio chunks must match number of transcripts"
  else
    .ok { files := (List.range audioChunks.length).map fun idx =>
            "chunk_" ++ toString idx ++ ".wav",
          transcripts := geminiTranscripts }

/-- **C10**.  When the number of audio chunks differs from the number of
transcripts, `enhanceChunks` throws `'Number of audio chunks must match number
of transcripts'` before constructing the upload payload or issuing any network
request; when the lengths agree, and only then, the payload is built and the
backend contacted. -/
theorem enhanceChunks_length_guard {α : Type} (audioChunks : List α)
    (geminiTranscripts : List String) :
    (audioChunks.length ≠ geminiTranscripts.length →
      enhanceChunks audioChunks geminiTranscripts =
        .error "Number of audio chunks must match number of transcripts") ∧
    (audioChunks.length = geminiTranscripts.length →
      enhanceChunks audioChunks geminiTranscripts =
        .ok { files := (List.range audioChunks.length).map fun idx =>
                "chunk_" ++ toString idx ++ ".wav",
              transcripts := geminiTranscripts }) := by
  constructor
  · intro h
    unfold enhanceChunks
    rw [if_pos h]
  · intro h
    unfold enhanceChunks
    rw [if_neg (by omega)]

/-- Witness for `enhanceChunks_length_guard`: a mismatched call (one chunk, no
transcripts) throws; a matched call (two chunks, two transcripts) produces the
payload. -/
theorem enhanceChunks_length_guard_witness :
    enhanceChunks [()] ([] : List String) =
      .error "Number of audio chunks must match number of transcripts" ∧
    enhanceChunks [(), ()] ["a", "b"] =
      .ok { files := (List.range 2).map fun idx => "chunk_" ++ toString idx ++ ".wav",
            transcripts := ["a", "b"] } :=
  ⟨(enhanceChunks_length_guard [()] []).1 (by decide),
   (enhanceChunks_length_guard [(), ()] ["a", "b"]).2 (by decide)⟩

/-! ## Speaker Identity Stitcher — spec §4.3 (`stitch`)

The cross-chunk speaker stitching runs in the companion Python backend, whose
source is not part of this repository checkout (only `backend/README.md` and
the frontend caller `enhanceChunks` are); the component is therefore modelled
from the specification: chunks are processed in ascending order; chunk 0's
distinct local speakers get fresh global ids; for chunk `k > 0`, boundary-region
speakers (last `W = 30` seconds of chunk `k-1`, first `W` seconds of chunk `k`)
are compared by cosine similarity of their voice embeddings and matched
greedily in a sequential best-match sweep with threshold `T = 0.75`, matched
speakers inheriting the existing global id, all remaining local speakers
receiving brand-new global ids.  Cosine similarity is compared through the
strictly monotone image `sgn(d)·d² / (|a|²·|b|²)` of the cosine `d/(|a||b|)`,
which stays inside `ℚ` (threshold `0.75` becomes `9/16`). -/

/-- Modelled from the spec: a `DiarizationSegment` (§3) of one chunk, with
chunk-relative times and the speaker's voice embedding. -/
structure DiarizationSegment where
  localSpeakerId : String
  startTime : ℚ
  endTime : ℚ
  voiceEmbedding : List ℚ
deriving DecidableEq

/-- Modelled from the spec: one chunk's diarization output together with the
chunk's duration (needed to locate the trailing boundary window). -/
structure DiarizedChunk where
  duration : ℚ
  segs : List DiarizationSegment
deriving DecidableEq

/-- Modelled from the spec: the incrementally built
`(chunkIndex, localSpeakerId) -> globalSpeakerId` mapping (§3), as an
association list queried by first match. -/
abbrev GlobalSpeakerMap := List ((Nat × String) × Nat)

/-- Modelled from the spec: the boundary-window width `W` (30 seconds). -/
def boundaryWindow : ℚ := 30

/-- Dot product of two embedding vectors. -/
def dotProd : List ℚ → List ℚ → ℚ
  | a :: as, b :: bs => a * b + dotProd as bs
  | _, _ => 0

/-- Squared Euclidean norm of an embedding vector. -/
def normSq (v : List ℚ) : ℚ := dotProd v v

/-- Modelled from the spec: a strictly monotone image of cosine similarity
that stays in `ℚ`: `sgn(d)·d² / (|a|²·|b|²)` where `d` is the dot product
(`0` for degenerate zero-norm embeddings). -/
def simKey (a b : List ℚ) : ℚ :=
  let d := dotProd a b
  let n := normSq a * normSq b
  if n = 0 then 0 else (if d < 0 then -(d * d) else d * d) / n

/-- The cosine threshold `T = 0.75` under the `simKey` image: `(3/4)² = 9/16`. -/
def simThreshold : ℚ := 9 / 16

/-- Local speaker ids in first-occurrence order, skipping ids already `seen`. -/
def firstOccurrences (seen : List String) : List String → List String
  | [] => []
  | x :: xs =>
    if x ∈ seen then firstOccurrences seen xs
    else x :: firstOccurrences (x :: seen) xs

/-- First recorded embedding of local speaker `lid` among `segs`. -/
def findEmbedding (lid : String) (segs : List DiarizationSegment) : List ℚ :=
  match segs.find? fun s => s.localSpeakerId == lid with
  | some s => s.voiceEmbedding
  | Option.none => []

/-- Modelled from the spec: segments lying in the trailing boundary window
(last `W` seconds) of a chunk. -/
def boundarySegsPrev (c : DiarizedChunk) : List DiarizationSegment :=
  c.segs.filter fun s => decide (c.duration - boundaryWindow ≤ s.endTime)

/-- Modelled from the spec: segments lying in the leading boundary window
(first `W` seconds) of a chunk. -/
def boundarySegsNext (c : DiarizedChunk) : List DiarizationSegment :=
  c.segs.filter fun s => decide (s.startTime ≤ boundaryWindow)

/-- Distinct boundary speakers of a chunk with a representative embedding. -/
def speakerEmbeddings (segs : List DiarizationSegment) : List (String × List ℚ) :=
  (firstOccurrences [] (segs.map DiarizationSegment.localSpeakerId)).map fun lid =>
    (lid, findEmbedding lid segs)

/-- Best available previous-chunk boundary speaker for embedding `emb`
(sequential max-similarity sweep; earlier candidate wins ties). -/
def bestMatch (emb : List ℚ) : List (String × List ℚ) → Option (String × ℚ)
  | [] => Option.none
  | (pid, e) :: rest =>
    let key := simKey emb e
    match bestMatch emb rest with
    | Option.none => some (pid, key)
    | some (pid', key') =>
      if key' > key then some (pid', key') else some (pid, key)

/-- Existing global id for the best above-threshold match, if any. -/
def matchGlobalId (prevIdx : Nat) (map : GlobalSpeakerMap) (emb : List ℚ)
    (avail : List (String × List ℚ)) : Option (Nat × String) :=
  match bestMatch emb avail with
  | Option.none => Option.none
  | some (pid, key) =>
    if simThreshold < key then
      match map.lookup (prevIdx, pid) with
      | some g => some (g, pid)
      | Option.none => Option.none
    else Option.none

/-- Modelled from the spec: greedy sequential assignment of chunk `k`'s
boundary speakers against the still-unmatched boundary speakers of chunk
`k - 1`; an above-threshold match inherits the existing global id (and the
matched previous speaker is consumed), otherwise a fresh id is minted.  The
map is only ever appended to — keys already present are skipped. -/
def assignLocals (k prevIdx : Nat) :
    List (String × List ℚ) → GlobalSpeakerMap → Nat → List (String × List ℚ) →
      GlobalSpeakerMap × Nat
  | [], map, next, _ => (map, next)
  | (lid, emb) :: rest, map, next, avail =>
    if (map.lookup (k, lid)).isSome then assignLocals k prevIdx rest map next avail
    else
      match matchGlobalId prevIdx map emb avail with
      | some (g, pid) =>
        assignLocals k prevIdx rest (map ++ [((k, lid), g)]) next
          (avail.filter fun p => p.1 != pid)
      | Option.none =>
        assignLocals k prevIdx rest (map ++ [((k, lid), next)]) (next + 1) avail

/-- Modelled from the spec: every distinct local speaker of chunk `k` not yet
mapped receives a brand-new global id. -/
def freshAssign (k : Nat) : List String → GlobalSpeakerMap → Nat → GlobalSpeakerMap × Nat
  | [], map, next => (map, next)
  | lid :: rest, map, next =>
    if (map.lookup (k, lid)).isSome then freshAssign k rest map next
    else freshAssign k rest (map ++ [((k, lid), next)]) (next + 1)

/-- Modelled from the spec: processing of one chunk — boundary matching
against the previous chunk (when there is one), then fresh ids for every
remaining local speaker of the chunk. -/
def stitchStep (k : Nat) (prev : Option DiarizedChunk) (c : DiarizedChunk)
    (map : GlobalSpeakerMap) (next : Nat) : GlobalSpeakerMap × Nat :=
  let st1 :=
    match prev with
    | Option.none => (map, next)
    | some p =>
      assignLocals k (k - 1) (speakerEmbeddings (boundarySegsNext c)) map next
        (speakerEmbeddings (boundarySegsPrev p))
  freshAssign k (firstOccurrences [] (c.segs.map DiarizationSegment.localSpeakerId)) st1.1 st1.2

/-- Modelled from the spec: the chunk-by-chunk fold of the Stitcher, threading
the map and the fresh-id counter. -/
def stitchAuxS : Nat → Option DiarizedChunk → List DiarizedChunk →
    GlobalSpeakerMap × Nat → GlobalSpeakerMap × Nat
  | _, _, [], st => st
  | k, prev, c :: rest, (map, next) =>
    stitchAuxS (k + 1) (some c) rest (stitchStep k prev c map next)

/-- Modelled from the spec: `stitch(perChunkDiarization) -> GlobalSpeakerMap`
(§4.3), processing chunks in ascending index order starting from the empty
map. -/
def stitch (chunks : List DiarizedChunk) : GlobalSpeakerMap :=
  (stitchAuxS 0 Option.none chunks ([], 0)).1

/-- The previous-chunk accumulator after processing `l`. -/
def prevAfter : List DiarizedChunk → Option DiarizedChunk → Option DiarizedChunk
  | [], prev => prev
  | c :: rest, _ => prevAfter rest (some c)

theorem lookup_append_of_some {α β : Type} [BEq α] (l1 l2 : List (α × β))
    (a : α) (b : β) (h : l1.lookup a = some b) : (l1 ++ l2).lookup a = some b := by
  induction l1 with
  | nil => simp [List.lookup] at h
  | cons p l ih =>
    obtain ⟨x, v⟩ := p
    simp only [List.cons_append, List.lookup] at h ⊢
    cases hb : a == x with
    | true => rw [hb] at h; exact h
    | false => rw [hb] at h; exact ih h

theorem assignLocals_extends (k prevIdx : Nat) :
    ∀ (locals : List (String × List ℚ)) (map : GlobalSpeakerMap) (next : Nat)
      (avail : List (String × List ℚ)),
      ∃ extra, (assignLocals k prevIdx locals map next avail).1 = map ++ extra := by
  intro locals
  induction locals with
  | nil => intro map next avail; exact ⟨[], by simp [assignLocals]⟩
  | cons p rest ih =>
    intro map next avail
    obtain ⟨lid, emb⟩ := p
    unfold assignLocals
    by_cases hmem : (map.lookup (k, lid)).isSome
    · rw [if_pos hmem]
      exact ih map next avail
    · rw [if_neg hmem]
      cases hm : matchGlobalId prevIdx map emb avail with
      | none =>
        obtain ⟨extra, hex⟩ := ih (map ++ [((k, lid), next)]) (next + 1) avail
        exact ⟨[((k, lid), next)] ++ extra, by rw [hex, List.append_assoc]⟩
      | some gp =>
        obtain ⟨g, pid⟩ := gp
        obtain ⟨extra, hex⟩ := ih (map ++ [((k, lid), g)]) next
          (avail.filter fun q => q.1 != pid)
        exact ⟨[((k, lid), g)] ++ extra, by rw [hex, List.append_assoc]⟩

theorem freshAssign_extends (k : Nat) :
    ∀ (ids : List String) (map : GlobalSpeakerMap) (next : Nat),
      ∃ extra, (freshAssign k ids map next).1 = map ++ extra := by
  intro ids
  induction ids with
  | nil => intro map next; exact ⟨[], by simp [freshAssign]⟩
  | cons lid rest ih =>
    intro map next
    unfold freshAssign
    by_cases hmem : (map.lookup (k, lid)).isSome
    · rw [if_pos hmem]
      exact ih map next
    · rw [if_neg hmem]
      obtain ⟨extra, hex⟩ := ih (map ++ [((k, lid), next)]) (next + 1)
      exact ⟨[((k, lid), next)] ++ extra, by rw [hex, List.append_assoc]⟩

theorem stitchStep_extends (k : Nat) (prev : Option DiarizedChunk) (c : DiarizedChunk)
    (map : GlobalSpeakerMap) (next : Nat) :
    ∃ extra, (stitchStep k prev c map next).1 = map ++ extra := by
  unfold stitchStep
  cases prev with
  | none =>
    obtain ⟨e2, h2⟩ := freshAssign_extends k
      (firstOccurrences [] (c.segs.map DiarizationSegment.localSpeakerId)) map next
    exact ⟨e2, h2⟩
  | some p =>
    obtain ⟨e1, h1⟩ := assignLocals_extends k (k - 1)
      (speakerEmbeddings (boundarySegsNext c)) map next
      (speakerEmbeddings (boundarySegsPrev p))
    obtain ⟨e2, h2⟩ := freshAssign_extends k
      (firstOccurrences [] (c.segs.map DiarizationSegment.localSpeakerId))
      (assignLocals k (k - 1) (speakerEmbeddings (boundarySegsNext c)) map next
        (speakerEmbeddings (boundarySegsPrev p))).1
      (assignLocals k (k - 1) (speakerEmbeddings (boundarySegsNext c)) map next
        (speakerEmbeddings (boundarySegsPrev p))).2
    refine ⟨e1 ++ e2, ?_⟩
    rw [h2, h1, List.append_assoc]

theorem stitchAuxS_lookup_mono (l : List DiarizedChunk) :
    ∀ (k : Nat) (prev : Option DiarizedChunk) (map : GlobalSpeakerMap) (next : Nat)
      (key : Nat × String) (g : Nat), map.lookup key = some g →
      ((stitchAuxS k prev l (map, next)).1).lookup key = some g := by
  induction l with
  | nil => intro k prev map next key g h; exact h
  | cons c rest ih =>
    intro k prev map next key g h
    show ((stitchAuxS (k + 1) (some c) rest (stitchStep k prev c map next)).1).lookup key
      = some g
    obtain ⟨extra, hex⟩ := stitchStep_extends k prev c map next
    have h2 : ((stitchStep k prev c map next).1).lookup key = some g := by
      rw [hex]
      exact lookup_append_of_some _ _ _ _ h
    exact ih (k + 1) (some c) (stitchStep k prev c map next).1
      (stitchStep k prev c map next).2 key g h2

theorem stitchAuxS_append (l1 l2 : List DiarizedChunk) :
    ∀ (k : Nat) (prev : Option DiarizedChunk) (st : GlobalSpeakerMap × Nat),
      stitchAuxS k prev (l1 ++ l2) st =
        stitchAuxS (k + l1.length) (prevAfter l1 prev) l2 (stitchAuxS k prev l1 st) := by
  induction l1 with
  | nil => intro k prev st; simp [stitchAuxS, prevAfter]
  | cons c rest ih =>
    intro k prev st
    obtain ⟨map, next⟩ := st
    have h1 : stitchAuxS k prev ((c :: rest) ++ l2) (map, next) =
        stitchAuxS (k + 1) (some c) (rest ++ l2) (stitchStep k prev c map next) := rfl
    have h2 : stitchAuxS k prev (c :: rest) (map, next) =
        stitchAuxS (k + 1) (some c) rest (stitchStep k prev c map next) := rfl
    have h3 : prevAfter (c :: rest) prev = prevAfter rest (some c) := rfl
    have h4 : k + (c :: rest).length = k + 1 + rest.length := by
      simp only [List.length_cons]
      omega
    rw [h1, h2, h3, h4, ih (k + 1) (some c) (stitchStep k prev c map next)]

/-- **C4**.  The `GlobalSpeakerMap` built by the Stitcher is write-once: if
after processing the first `j` chunks the pair `(chunkIndex, localSpeakerId)`
is mapped to global id `G`, then querying the map produced by the full job
still returns `G` — no pair is ever remapped, and each issued global id stays
stable for the lifetime of the job (the map is only ever appended to, and
lookups return the first match). -/
theorem stitch_write_once (chunks : List DiarizedChunk) (j : Nat)
    (key : Nat × String) (g : Nat)
    (h : (stitch (chunks.take j)).lookup key = some g) :
    (stitch chunks).lookup key = some g := by
  have hs : stitch chunks =
      (stitchAuxS (0 + (chunks.take j).length) (prevAfter (chunks.take j) Option.none)
        (chunks.drop j) (stitchAuxS 0 Option.none (chunks.take j) ([], 0))).1 := by
    unfold stitch
    conv_lhs => rw [← List.take_append_drop j chunks]
    rw [stitchAuxS_append]
  rw [hs]
  exact stitchAuxS_lookup_mono (chunks.drop j) _ _
    (stitchAuxS 0 Option.none (chunks.take j) ([], 0)).1
    (stitchAuxS 0 Option.none (chunks.take j) ([], 0)).2 key g h

/-- Two one-speaker chunks with identical embeddings, used to witness
`stitch_write_once`. -/
def demoChunks : List DiarizedChunk :=
  [{ duration := 60,
     segs := [{ localSpeakerId := "S1", startTime := 0, endTime := 60,
                voiceEmbedding := [1] }] },
   { duration := 60,
     segs := [{ localSpeakerId := "S1", startTime := 0, endTime := 60,
                voiceEmbedding := [1] }] }]

/-- Witness for `stitch_write_once`: after chunk 0 of `demoChunks`, `(0, "S1")`
is mapped to global id 0, and the full two-chunk job still maps it to 0. -/
theorem stitch_write_once_witness :
    (stitch demoChunks).lookup (0, "S1") = some 0 :=
  stitch_write_once demoChunks 1 (0, "S1") 0 (by decide)
